import Mathlib

/-!
Verification of the PyMeasure Worker/Procedure execution core.

This file shallowly embeds the experiment-execution subsystem of the
repository (pymeasure/experiment/procedure.py and
pymeasure/experiment/workers.py) and proves properties of the embedding.

Modelling conventions:
* Python integer status codes are `Nat` (procedure.py line 47).
* Parameter values are `Int`; a `Param` carries the optional stored value
  and the casting function its value-setter applies (the Parameter class
  itself lives in pymeasure/experiment/parameters.py, outside the staged
  sources; only the facts used by procedure.py are modelled: a parameter
  stores a value, assignment casts it).
* A Python object's attribute table is a function `String → Option Int`
  for the parameter-name attributes; `none` models the attribute bound to
  Python `None`.
* Fallible methods return `Except ExpError α`; each `ExpError` constructor
  stands for one concrete `raise` site of the sources.
* The user-supplied hooks `startup`/`execute`/`shutdown` of a running
  procedure are inputs of the worker-run model: the emissions `execute`
  makes and the outcomes of all three hooks (normal return, raising an
  `Exception`, or a `KeyboardInterrupt`/`SystemExit` interrupt for
  `execute`).
-/

/-! ### Status codes, from procedure.py line 47:
`FINISHED, FAILED, ABORTED, QUEUED, RUNNING = 0, 1, 2, 3, 4` -/

def Procedure.FINISHED : Nat := 0

def Procedure.FAILED : Nat := 1

def Procedure.ABORTED : Nat := 2

def Procedure.QUEUED : Nat := 3

def Procedure.RUNNING : Nat := 4

/-- The three terminal statuses of the spec's finite state machine. -/
def isTerminal (s : Nat) : Bool :=
  s == Procedure.FINISHED || s == Procedure.FAILED || s == Procedure.ABORTED

/-- Each constructor stands for one `raise` site of the embedded sources:
`invalidResults` for the ValueError of workers.py line 54, `missingParameter`
for the NameError of procedure.py line 87 (carrying the unset parameter's
name and the procedure's class, as the message does), `undeclaredParameter`
for the NameError of procedure.py line 137, `attributeError` for Python's
AttributeError on a missing attribute, `unrunnableProcedure` for the
Exception of procedure.py line 177. -/
inductive ExpError where
  | invalidResults (msg : String)
  | missingParameter (paramName : String) (procClass : String)
  | undeclaredParameter (paramName : String)
  | attributeError (attr : String)
  | unrunnableProcedure (msg : String)
  deriving DecidableEq

/-- A parameter object: its stored value and the cast its value-setter
applies (`parameter.value = v` stores the cast value, which procedure.py
reads back through `self._parameters[name].value`). -/
structure Param where
  value : Option Int
  cast : Int → Int

/-- The state of a `Procedure` instance that the embedded methods touch:
its class name (used in error messages), the `_parameters` dict as an
insertion-ordered association list, the instance attributes named after the
parameters (`getattr(self, name)`; `none` models Python `None`), and the
status field. -/
structure ProcedureM where
  className : String
  params : List (String × Param)
  attrs : String → Option Int
  status : Nat

/-- `getattr(self, name)` for a parameter-name attribute. -/
def getAttr (p : ProcedureM) (n : String) : Option Int := p.attrs n

/-- Dict lookup in `self._parameters` (first entry with the key). -/
def lookupParam : List (String × Param) → String → Option Param
  | [], _ => none
  | e :: rest, n => if e.fst == n then some e.snd else lookupParam rest n

/-- `name in self._parameters`. -/
def declared (p : ProcedureM) (n : String) : Bool := (lookupParam p.params n).isSome

/-- The cast function of the declared parameter named `n` (identity when
undeclared; only used at declared names). -/
def castOf (p : ProcedureM) (n : String) : Int → Int :=
  match lookupParam p.params n with
  | some pr => pr.cast
  | none => id

/-- `parameter.value = v`: the setter stores the cast value. -/
def setParamValue (pr : Param) (v : Int) : Param := { pr with value := some (pr.cast v) }

/-- `self._parameters[name].value = value` applied to the dict: every entry
whose key is `n` (in a dict, the one entry) gets the new stored value. -/
def updateEntry : List (String × Param) → String → Int → List (String × Param)
  | [], _, _ => []
  | e :: rest, n, v =>
    (if e.fst == n then (e.fst, setParamValue e.snd v) else e) :: updateEntry rest n v

/-- One loop iteration of `set_parameters` for a declared name
(procedure.py lines 132-134): store the value in the parameter object, then
`setattr(self, name, self._parameters[name].value)` rebinds the attribute
to the value read back from the parameter. -/
def setOneParam (p : ProcedureM) (n : String) (v : Int) : ProcedureM :=
  let ps := updateEntry p.params n v
  let newVal : Option Int :=
    match lookupParam ps n with
    | some pr => pr.value
    | none => none
  { p with params := ps, attrs := fun m => if m == n then newVal else p.attrs m }

/-- `Procedure.set_parameters(self, parameters, except_missing)`
(procedure.py lines 127-138). The input dict is its ordered list of items.
Python mutates `self` and lets the NameError propagate, so the model
returns the state reached together with the error, if one was raised:
processing stops at the first undeclared name when `exceptMissing` is true,
keeping the updates already made. -/
def set_parameters (p : ProcedureM) (l : List (String × Int)) (exceptMissing : Bool) :
    ProcedureM × Option ExpError :=
  match l with
  | [] => (p, none)
  | e :: rest =>
    if declared p e.fst then set_parameters (setOneParam p e.fst e.snd) rest exceptMissing
    else if exceptMissing then (p, some (ExpError.undeclaredParameter e.fst))
    else set_parameters p rest exceptMissing

/-- `Procedure.parameters_are_set` (procedure.py lines 71-76): every
declared parameter's attribute is non-None. -/
def parameters_are_set (p : ProcedureM) : Bool :=
  p.params.all fun e => (getAttr p e.fst).isSome

/-- The loop of `Procedure.check_parameters` (procedure.py lines 84-88)
over the remaining `_parameters` items: the first name whose attribute is
None raises the NameError naming the parameter and the procedure class. -/
def checkParamsList (p : ProcedureM) : List (String × Param) → Except ExpError Unit
  | [] => Except.ok ()
  | e :: rest =>
    match getAttr p e.fst with
    | none => Except.error (ExpError.missingParameter e.fst p.className)
    | some _ => checkParamsList p rest

/-- `Procedure.check_parameters` (procedure.py lines 78-88). -/
def check_parameters (p : ProcedureM) : Except ExpError Unit := checkParamsList p p.params

/-- Whether an `Except` computation returned without raising. -/
def exceptOk : Except ExpError Unit → Bool
  | Except.ok _ => true
  | Except.error _ => false

/-- The key of the first entry of `l` whose attribute on `p` is None. -/
def firstUnset (p : ProcedureM) : List (String × Param) → Option String
  | [] => none
  | e :: rest => if (getAttr p e.fst).isNone then some e.fst else firstUnset p rest

/-- The methods `class Procedure` defines (procedure.py lines 51-165); a
call `self.m(...)` on a base-class instance succeeds only for these names.
The listing is the class's method table, copied from the source. -/
def Procedure.methodNames : List String :=
  ["__init__", "_update_parameters", "parameters_are_set", "check_parameters",
   "parameter_values", "parameter_objects", "refresh_parameters", "set_parameters",
   "enter", "execute", "exit", "__str__"]

/-- The parameter listing `__str__` is written to build (procedure.py lines
158-165), reachable only if the method it calls exists. -/
def parameterListing (p : ProcedureM) : String :=
  p.params.foldl (fun acc e => acc ++ e.fst ++ "\n") (p.className ++ "\n")

/-- `Procedure.__str__` (procedure.py lines 158-165): its body calls
`self.parameterObjects()`; Python resolves that name against the class's
method table and raises AttributeError when it is absent. -/
def procedureStr (p : ProcedureM) : Except ExpError String :=
  if Procedure.methodNames.contains "parameterObjects" then Except.ok (parameterListing p)
  else Except.error (ExpError.attributeError "parameterObjects")

/-- The state of an `UnknownProcedure` (procedure.py lines 168-177): its
`__init__` stores only the given parameter dict. -/
structure UnknownProcedureM where
  params : List (String × Param)

/-- `UnknownProcedure.__init__(self, parameters)` (procedure.py lines
173-174). -/
def UnknownProcedure.init (ps : List (String × Param)) : UnknownProcedureM :=
  { params := ps }

/-- `UnknownProcedure.enter` (procedure.py lines 176-177): always raises. -/
def UnknownProcedure.enter (_u : UnknownProcedureM) : Except ExpError Unit :=
  Except.error (ExpError.unrunnableProcedure "UnknownProcedure can not be run")

/-- A procedure object reconstructed from a persisted run. -/
inductive LoadedProcedure where
  | known (p : ProcedureM)
  | unknown (u : UnknownProcedureM)

/-- Modelled from the spec: `Results.load` (pymeasure/experiment/results.py
is not among the staged sources) "reconstructs a Results instance by
reading the header to rebuild an equivalent Procedure configuration ...;
if the original Procedure type cannot be resolved, produces a placeholder
(unknown procedure) object". `resolvable` is the outcome of resolving the
persisted Procedure class; `headerParams` the parameter dict read from the
header. -/
def loadProcedure (resolvable : Option ProcedureM) (headerParams : List (String × Param)) :
    LoadedProcedure :=
  match resolvable with
  | some p => LoadedProcedure.known p
  | none => LoadedProcedure.unknown (UnknownProcedure.init headerParams)

/-! ### The Worker (workers.py) -/

/-- One message emitted over the worker's publisher (`Worker.emit`,
workers.py lines 71-80). Status codes are the `Nat` codes above; progress
payloads (the floats `0.` and `100.` of lines 109 and 125) are naturals;
a results row is a list of numbers; an error payload is the traceback
string from `handle_exception`. -/
inductive Msg where
  | status (s : Nat)
  | progress (v : Nat)
  | results (row : List Int)
  | error (tb : String)
  deriving DecidableEq

/-- An emission the procedure's `execute` makes through the routed
`self.emit` — per the procedure contract, `results` rows and `progress`
values. -/
inductive ProcEmit where
  | results (row : List Int)
  | progress (v : Nat)
  deriving DecidableEq

def ProcEmit.toMsg : ProcEmit → Msg
  | ProcEmit.results r => Msg.results r
  | ProcEmit.progress v => Msg.progress v

/-- The outcome of `self.procedure.startup()` (workers.py line 110): the
call is outside any `try`, so the model only distinguishes a normal return
from a raised exception (carrying its traceback description). -/
inductive StartOut where
  | normal
  | raises (tb : String)
  deriving DecidableEq

/-- The outcome of `self.procedure.execute()` (workers.py line 112):
normal return, an `Exception` with traceback `tb` (the branch of line 116),
or a `KeyboardInterrupt`/`SystemExit` (the branch of line 113). -/
inductive ExecOut where
  | normal
  | raises (tb : String)
  | interrupt
  deriving DecidableEq

/-- The outcome of `self.procedure.shutdown()` (workers.py line 120),
called first inside the `finally` suite: normal return or a raised
exception. In Python, an exception raised inside a `finally` suite
abandons the rest of the suite and propagates out of the function. -/
inductive ShutOut where
  | normal
  | raises (tb : String)
  deriving DecidableEq

/-- What escapes `run` once `execute()`'s own fault has been handled, as a
function of the shutdown outcome alone: nothing when `shutdown()` returns,
the shutdown exception when it raises. -/
def ShutOut.escaped : ShutOut → Option String
  | ShutOut.normal => none
  | ShutOut.raises tb => some tb

/-- The behaviour of one worker run's procedure, as inputs of the model:
the outcomes of the `startup`, `execute` and `shutdown` hooks, the
emissions `execute` made before its outcome, and the value
`self.should_stop()` reports at the teardown check of line 121. -/
structure RunInput where
  startupOut : StartOut
  execEmits : List ProcEmit
  execOut : ExecOut
  shutdownOut : ShutOut
  stop : Bool

/-- What one call of `Worker.run` produced: the messages emitted in order,
the final `self.procedure.status`, how many times `shutdown()` was
invoked, the exception (traceback) that escaped `run` itself, if any, and
whether the `results_queue.put(None)` sentinel of line 126 was reached. -/
structure RunResult where
  msgs : List Msg
  final : Nat
  shutdownCalls : Nat
  propagated : Option String
  sentinel : Bool

/-- The teardown safety net of `Worker.run` (workers.py lines 121-125),
as a function of the stop flag and the status it runs on: if the stop flag
is set and the status is still RUNNING, force ABORTED; then, if the status
is still RUNNING, force FINISHED and emit `progress` 100. Each forced
status is emitted through `update_status`. -/
def teardown (stop : Bool) (st : Nat) : Nat × List Msg :=
  let s1 := if stop && (st == Procedure.RUNNING) then Procedure.ABORTED else st
  let m1 : List Msg :=
    if stop && (st == Procedure.RUNNING) then [Msg.status Procedure.ABORTED] else []
  let s2 := if s1 == Procedure.RUNNING then Procedure.FINISHED else s1
  let m2 : List Msg :=
    if s1 == Procedure.RUNNING then [Msg.status Procedure.FINISHED, Msg.progress 100] else []
  (s2, m1 ++ m2)

/-- `Worker.run` (workers.py lines 92-127). The status starts QUEUED (set
by `Worker.__init__`, line 58). The run emits `status` RUNNING (line 108)
and `progress` 0 (line 109), then calls `startup()` (line 110) — outside
the `try`, so an exception there escapes `run` with nothing else done.
Otherwise `execute()` runs inside `try` (lines 111-118): an `Exception`
is handed to `handle_exception` (one `error` message with the traceback)
and the status is forced FAILED; a `KeyboardInterrupt`/`SystemExit` forces
FAILED without an `error` message. The `finally` block (lines 119-127)
first calls `shutdown()` (line 120): if it raises, the rest of the
`finally` suite (lines 121-127) is abandoned — the status stays whatever
it already was and the shutdown exception escapes `run` — and otherwise
the teardown safety net runs, the sentinel is put and the worker stops. -/
def Worker.run (inp : RunInput) : RunResult :=
  let msgs0 : List Msg := [Msg.status Procedure.RUNNING, Msg.progress 0]
  match inp.startupOut with
  | StartOut.raises tb =>
      { msgs := msgs0, final := Procedure.RUNNING, shutdownCalls := 0,
        propagated := some tb, sentinel := false }
  | StartOut.normal =>
      let execMsgs := inp.execEmits.map ProcEmit.toMsg
      let bodyMsgs : List Msg :=
        match inp.execOut with
        | ExecOut.normal => []
        | ExecOut.interrupt => [Msg.status Procedure.FAILED]
        | ExecOut.raises tb => [Msg.error tb, Msg.status Procedure.FAILED]
      let stAfter : Nat :=
        match inp.execOut with
        | ExecOut.normal => Procedure.RUNNING
        | ExecOut.interrupt => Procedure.FAILED
        | ExecOut.raises _ => Procedure.FAILED
      match inp.shutdownOut with
      | ShutOut.raises tb2 =>
          { msgs := msgs0 ++ execMsgs ++ bodyMsgs, final := stAfter,
            shutdownCalls := 1, propagated := some tb2, sentinel := false }
      | ShutOut.normal =>
          let td := teardown inp.stop stAfter
          { msgs := msgs0 ++ execMsgs ++ bodyMsgs ++ td.snd,
            final := td.fst, shutdownCalls := 1, propagated := none, sentinel := true }

/-- The status payload of a message, when it is one. -/
def statusOf : Msg → Option Nat
  | Msg.status s => some s
  | _ => none

/-- The traceback payload of a message, when it is an `error` message. -/
def errorOf : Msg → Option String
  | Msg.error tb => some tb
  | _ => none

/-- The `status`-topic payloads of a message list, in emission order. -/
def statusMsgs (l : List Msg) : List Nat := l.filterMap statusOf

/-- The `error`-topic payloads of a message list, in emission order. -/
def errorMsgs (l : List Msg) : List String := l.filterMap errorOf

/-- The successive values of `self.procedure.status` over a worker run:
QUEUED from construction, then one value per `update_status` call — and
every `update_status` pairs the write with a `status` emission, so the
writes after QUEUED are exactly the `status`-topic payloads. -/
def statusTrace (r : RunResult) : List Nat := Procedure.QUEUED :: statusMsgs r.msgs

/-- The teardown safety net re-run on each terminal status, under either
stop flag, changes nothing and emits nothing (terminal status is
write-once). -/
def teardownWriteOnce : Bool :=
  [false, true].all fun stop =>
    [Procedure.FINISHED, Procedure.FAILED, Procedure.ABORTED].all fun s =>
      decide (teardown stop s = (s, ([] : List Msg)))

/-! ### Worker construction (workers.py lines 47-61) -/

/-- What `Worker.__init__` keeps when it accepts the job. -/
structure WorkerState where
  port : Nat
  procedure : ProcedureM

/-- `self.procedure.status = Procedure.QUEUED` (workers.py line 58). -/
def withStatus (p : ProcedureM) (s : Nat) : ProcedureM := { p with status := s }

/-- `Worker.__init__(self, results, port)` (workers.py lines 47-61): a
`none` argument models an object that is not a `Results` instance (the
`isinstance` check of line 53 raises the ValueError of line 54); a
`some proc` argument models a valid Results bound to the one procedure
`proc` (line 56), whose parameters are then checked (line 57) before the
status is set to QUEUED (line 58). The Results class itself lives in
pymeasure/experiment/results.py, outside the staged sources; only what
line 53 and line 56 use of it is modelled. -/
def Worker.init (arg : Option ProcedureM) (port : Nat) : Except ExpError WorkerState :=
  match arg with
  | none => Except.error (ExpError.invalidResults "Invalid Results object during Worker construction")
  | some proc =>
    match check_parameters proc with
    | Except.error e => Except.error e
    | Except.ok _ => Except.ok ⟨port, withStatus proc Procedure.QUEUED⟩

/-! ### Helper lemmas about message filtering and teardown -/

@[simp]
lemma statusOf_status (s : Nat) : statusOf (Msg.status s) = some s := rfl

@[simp]
lemma statusOf_progress (v : Nat) : statusOf (Msg.progress v) = none := rfl

@[simp]
lemma statusOf_results (r : List Int) : statusOf (Msg.results r) = none := rfl

@[simp]
lemma statusOf_error (tb : String) : statusOf (Msg.error tb) = none := rfl

@[simp]
lemma errorOf_status (s : Nat) : errorOf (Msg.status s) = none := rfl

@[simp]
lemma errorOf_progress (v : Nat) : errorOf (Msg.progress v) = none := rfl

@[simp]
lemma errorOf_results (r : List Int) : errorOf (Msg.results r) = none := rfl

@[simp]
lemma errorOf_error (tb : String) : errorOf (Msg.error tb) = some tb := rfl

@[simp]
lemma statusMsgs_nil : statusMsgs [] = [] := rfl

@[simp]
lemma statusMsgs_cons (m : Msg) (l : List Msg) :
    statusMsgs (m :: l) = (statusOf m).toList ++ statusMsgs l := by
  cases m <;> simp [statusMsgs]

@[simp]
lemma statusMsgs_append (a b : List Msg) :
    statusMsgs (a ++ b) = statusMsgs a ++ statusMsgs b := by
  simp [statusMsgs, List.filterMap_append]

@[simp]
lemma errorMsgs_nil : errorMsgs [] = [] := rfl

@[simp]
lemma errorMsgs_cons (m : Msg) (l : List Msg) :
    errorMsgs (m :: l) = (errorOf m).toList ++ errorMsgs l := by
  cases m <;> simp [errorMsgs]

@[simp]
lemma errorMsgs_append (a b : List Msg) :
    errorMsgs (a ++ b) = errorMsgs a ++ errorMsgs b := by
  simp [errorMsgs, List.filterMap_append]

@[simp]
lemma statusMsgs_execMsgs (l : List ProcEmit) : statusMsgs (l.map ProcEmit.toMsg) = [] := by
  induction l with
  | nil => rfl
  | cons e rest ih => cases e <;> simpa [ProcEmit.toMsg] using ih

@[simp]
lemma errorMsgs_execMsgs (l : List ProcEmit) : errorMsgs (l.map ProcEmit.toMsg) = [] := by
  induction l with
  | nil => rfl
  | cons e rest ih => cases e <;> simpa [ProcEmit.toMsg] using ih

lemma teardown_running_stop :
    teardown true Procedure.RUNNING
      = (Procedure.ABORTED, [Msg.status Procedure.ABORTED]) := rfl

lemma teardown_running_nostop :
    teardown false Procedure.RUNNING
      = (Procedure.FINISHED, [Msg.status Procedure.FINISHED, Msg.progress 100]) := rfl

lemma teardown_failed (stop : Bool) :
    teardown stop Procedure.FAILED = (Procedure.FAILED, []) := by
  cases stop <;> rfl

/-- A procedure that never emits `progress` 100 contributes no
`progress` 100 message to the stream. -/
lemma progress100_not_mem (l : List ProcEmit)
    (h : l.all (fun e => !(e == ProcEmit.progress 100)) = true) :
    Msg.progress 100 ∉ l.map ProcEmit.toMsg := by
  intro hmem
  rcases List.mem_map.mp hmem with ⟨e, he, htm⟩
  cases e with
  | results r => simp [ProcEmit.toMsg] at htm
  | progress v =>
      have hv : v = 100 := by simpa [ProcEmit.toMsg] using htm
      subst hv
      have := List.all_eq_true.mp h _ he
      simp at this

/-- The teardown safety net leaves every terminal status unchanged, for
either stop-flag value: terminal status is write-once. -/
lemma teardownWriteOnce_true : teardownWriteOnce = true := by decide

/-! ### Claim theorems about the Worker run -/

/-- Claim C1: for every run in which `execute()` raises a fault
(a Python `Exception` with traceback `tb`), whatever `shutdown()` then
does, the Worker catches the fault and does not re-raise it to its caller:
it emits exactly one `error` message carrying the traceback description,
forces the final status to FAILED, and still invokes `shutdown()` exactly
once. The execute fault itself is fully absorbed — the only exception that
can escape `run` is `shutdown()`'s own (`ShutOut.escaped`), never `tb`'s
fault. -/
theorem worker_execute_fault_contained (em : List ProcEmit) (sd : ShutOut) (st : Bool)
    (tb : String) :
    errorMsgs (Worker.run ⟨StartOut.normal, em, ExecOut.raises tb, sd, st⟩).msgs = [tb]
    ∧ (Worker.run ⟨StartOut.normal, em, ExecOut.raises tb, sd, st⟩).final = Procedure.FAILED
    ∧ (Worker.run ⟨StartOut.normal, em, ExecOut.raises tb, sd, st⟩).shutdownCalls = 1
    ∧ (Worker.run ⟨StartOut.normal, em, ExecOut.raises tb, sd, st⟩).propagated = sd.escaped := by
  cases sd <;> cases st <;> simp [Worker.run, teardown_failed, ShutOut.escaped]

/-- Claim C3 (amended): for every run whose `startup()` and `shutdown()`
hooks both return normally, the status moves forward along QUEUED →
RUNNING → exactly one terminal status, never backward, and the teardown
safety net re-run on a terminal status changes nothing (terminal status is
write-once). When `startup()` raises, or when `shutdown()` raises after a
normal `execute()` return, no terminal status is reached (see the
counterexamples of C3 and C2). -/
theorem worker_status_forward_once (em : List ProcEmit) (eo : ExecOut) (st : Bool) :
    statusTrace (Worker.run ⟨StartOut.normal, em, eo, ShutOut.normal, st⟩)
      = [Procedure.QUEUED, Procedure.RUNNING,
          (Worker.run ⟨StartOut.normal, em, eo, ShutOut.normal, st⟩).final]
    ∧ isTerminal (Worker.run ⟨StartOut.normal, em, eo, ShutOut.normal, st⟩).final = true
    ∧ teardownWriteOnce = true := by
  cases eo <;> cases st <;>
    simp [Worker.run, statusTrace, teardown_running_stop, teardown_running_nostop,
      teardown_failed, isTerminal, teardownWriteOnce_true]

/-- Claim C3 counterexample: a run whose `startup()` raises reaches no
terminal status at all — its status trace is QUEUED, RUNNING and stops
there — so "exactly one terminal status is reached and emitted per run"
is false for the code as a whole. -/
theorem worker_status_no_terminal_cex :
    statusTrace (Worker.run ⟨StartOut.raises "boom", [], ExecOut.normal,
        ShutOut.normal, false⟩)
      = [Procedure.QUEUED, Procedure.RUNNING]
    ∧ (statusTrace (Worker.run ⟨StartOut.raises "boom", [], ExecOut.normal,
        ShutOut.normal, false⟩)).countP (fun s => isTerminal s) = 0 := by decide

/-- Claim C4 (amended): within one run whose `startup()` and `shutdown()`
hooks both return normally and whose procedure never itself emits
`progress` 100, the `status` RUNNING message is the first message emitted
(hence precedes every `results` and `progress` emission); the
`status`-topic payloads are exactly RUNNING followed by the final status,
which is terminal (so the terminal status message is the last
`status`-topic message); and a `progress` message with value 100 is
emitted iff the run completes with status FINISHED. -/
theorem worker_emission_order (em : List ProcEmit) (eo : ExecOut) (st : Bool)
    (h : em.all (fun e => !(e == ProcEmit.progress 100)) = true) :
    (Worker.run ⟨StartOut.normal, em, eo, ShutOut.normal, st⟩).msgs.head?
        = some (Msg.status Procedure.RUNNING)
    ∧ statusMsgs (Worker.run ⟨StartOut.normal, em, eo, ShutOut.normal, st⟩).msgs
        = [Procedure.RUNNING,
            (Worker.run ⟨StartOut.normal, em, eo, ShutOut.normal, st⟩).final]
    ∧ isTerminal (Worker.run ⟨StartOut.normal, em, eo, ShutOut.normal, st⟩).final = true
    ∧ ((Msg.progress 100 ∈ (Worker.run ⟨StartOut.normal, em, eo, ShutOut.normal, st⟩).msgs)
        ↔ (Worker.run ⟨StartOut.normal, em, eo, ShutOut.normal, st⟩).final
            = Procedure.FINISHED) := by
  have hnp := progress100_not_mem em h
  cases eo <;> cases st <;>
    simp [Worker.run, teardown_running_stop, teardown_running_nostop, teardown_failed, hnp] <;>
    decide

/-- Claim C4 witness: the amended ordering statement at a concrete run
that emits one results row and finishes normally. -/
theorem worker_emission_order_witness :
    (Worker.run ⟨StartOut.normal, [ProcEmit.results [1]], ExecOut.normal,
        ShutOut.normal, false⟩).msgs.head?
        = some (Msg.status Procedure.RUNNING)
    ∧ statusMsgs (Worker.run ⟨StartOut.normal, [ProcEmit.results [1]],
          ExecOut.normal, ShutOut.normal, false⟩).msgs
        = [Procedure.RUNNING,
            (Worker.run ⟨StartOut.normal, [ProcEmit.results [1]],
              ExecOut.normal, ShutOut.normal, false⟩).final]
    ∧ isTerminal (Worker.run ⟨StartOut.normal, [ProcEmit.results [1]],
          ExecOut.normal, ShutOut.normal, false⟩).final = true
    ∧ ((Msg.progress 100
          ∈ (Worker.run ⟨StartOut.normal, [ProcEmit.results [1]],
              ExecOut.normal, ShutOut.normal, false⟩).msgs)
        ↔ (Worker.run ⟨StartOut.normal, [ProcEmit.results [1]],
            ExecOut.normal, ShutOut.normal, false⟩).final = Procedure.FINISHED) :=
  worker_emission_order [ProcEmit.results [1]] ExecOut.normal false (by decide)

/-- Claim C4 counterexample: a procedure that emits `progress` 100 through
the routed `emit` and then raises yields a run whose stream contains a
`progress` 100 message although its final status is FAILED, so the
biconditional of the claim as stated is false on the code. -/
theorem worker_progress100_failed_cex :
    Msg.progress 100
        ∈ (Worker.run ⟨StartOut.normal, [ProcEmit.progress 100],
            ExecOut.raises "boom", ShutOut.normal, false⟩).msgs
    ∧ (Worker.run ⟨StartOut.normal, [ProcEmit.progress 100],
          ExecOut.raises "boom", ShutOut.normal, false⟩).final ≠ Procedure.FINISHED := by
  decide

/-- Claim C6 (amended): a fault raised from the procedure's `startup()`
hook is NOT treated like an execution fault: `startup()` is called outside
the `try` block of `Worker.run`, so the exception propagates out of `run`,
no `error` message is emitted, the status is not forced to FAILED (it
remains RUNNING), and `shutdown()` is never invoked. -/
theorem worker_startup_fault_propagates (em : List ProcEmit) (eo : ExecOut) (sd : ShutOut)
    (st : Bool) (tb : String) :
    (Worker.run ⟨StartOut.raises tb, em, eo, sd, st⟩).propagated = some tb
    ∧ errorMsgs (Worker.run ⟨StartOut.raises tb, em, eo, sd, st⟩).msgs = []
    ∧ (Worker.run ⟨StartOut.raises tb, em, eo, sd, st⟩).final = Procedure.RUNNING
    ∧ (Worker.run ⟨StartOut.raises tb, em, eo, sd, st⟩).shutdownCalls = 0 := by
  simp [Worker.run]

/-- Claim C6 counterexample: at a concrete run whose `startup()` raises,
the fault escapes `run` (it is not caught), no `error` message is emitted,
the status is not FAILED, and `shutdown()` is not invoked — contradicting
the claim that such a fault is caught and converted to an `error` message
plus a forced FAILED status. -/
theorem worker_startup_fault_cex :
    (Worker.run ⟨StartOut.raises "boom", [], ExecOut.normal,
        ShutOut.normal, false⟩).propagated = some "boom"
    ∧ (Worker.run ⟨StartOut.raises "boom", [], ExecOut.normal,
        ShutOut.normal, false⟩).final ≠ Procedure.FAILED
    ∧ errorMsgs (Worker.run ⟨StartOut.raises "boom", [], ExecOut.normal,
        ShutOut.normal, false⟩).msgs = []
    ∧ (Worker.run ⟨StartOut.raises "boom", [], ExecOut.normal,
        ShutOut.normal, false⟩).shutdownCalls = 0 := by
  decide

/-! ### Helper lemmas about parameter checking -/

/-- When every declared parameter's attribute is set, the
`check_parameters` loop returns without raising. -/
lemma checkParamsList_ok (p : ProcedureM) :
    ∀ l : List (String × Param), (l.all fun e => (getAttr p e.fst).isSome) = true →
      checkParamsList p l = Except.ok () := by
  intro l
  induction l with
  | nil => intro _; rfl
  | cons e rest ih =>
      intro h
      rw [List.all_cons, Bool.and_eq_true] at h
      cases hx : getAttr p e.fst with
      | none => rw [hx] at h; simp at h
      | some v =>
          simp only [checkParamsList, hx]
          exact ih h.2

/-- When some declared parameter's attribute is None, the
`check_parameters` loop raises the missing-parameter error for the first
such entry, which is an entry of the dict with a None attribute. -/
lemma checkParamsList_unset (p : ProcedureM) :
    ∀ l : List (String × Param), (l.all fun e => (getAttr p e.fst).isSome) = false →
      ∃ e, e ∈ l ∧ getAttr p e.fst = none
        ∧ checkParamsList p l
            = Except.error (ExpError.missingParameter e.fst p.className) := by
  intro l
  induction l with
  | nil => intro h; simp at h
  | cons e rest ih =>
      intro h
      cases hx : getAttr p e.fst with
      | none =>
          exact ⟨e, List.mem_cons_self e rest, hx, by simp only [checkParamsList, hx]⟩
      | some v =>
          rw [List.all_cons, hx] at h
          simp only [Option.isSome_some, Bool.true_and] at h
          obtain ⟨e', he', hnone, hres⟩ := ih h
          exact ⟨e', List.mem_cons_of_mem e he', hnone,
            by simp only [checkParamsList, hx]; exact hres⟩

/-- An entry of the `_parameters` dict is found by dict lookup on its key. -/
lemma lookupParam_isSome_of_mem :
    ∀ (l : List (String × Param)) (e : String × Param), e ∈ l →
      (lookupParam l e.fst).isSome = true := by
  intro l
  induction l with
  | nil => intro e h; cases h
  | cons a rest ih =>
      intro e h
      cases h with
      | head => simp [lookupParam]
      | tail _ hm =>
          simp only [lookupParam]
          cases hq : (a.fst == e.fst) with
          | true => simp
          | false => simpa using ih e hm

/-- The `check_parameters` loop succeeds exactly on the inputs on which
`parameters_are_set`'s loop reports true. -/
lemma exceptOk_checkParamsList (p : ProcedureM) :
    ∀ l : List (String × Param),
      exceptOk (checkParamsList p l) = l.all fun e => (getAttr p e.fst).isSome := by
  intro l
  induction l with
  | nil => rfl
  | cons e rest ih =>
      cases hx : getAttr p e.fst with
      | none => simp [checkParamsList, hx, exceptOk, List.all_cons]
      | some v => simp [checkParamsList, hx, List.all_cons, ih]

/-- Some declared attribute is None exactly when not all are set. -/
lemma all_isSome_eq_false_iff_any_isNone (p : ProcedureM) :
    ∀ l : List (String × Param),
      ((l.all fun e => (getAttr p e.fst).isSome) = false
        ↔ (l.any fun e => (getAttr p e.fst).isNone) = true) := by
  intro l
  induction l with
  | nil => simp
  | cons e rest ih =>
      cases hx : getAttr p e.fst <;> simp [List.all_cons, List.any_cons, hx, ih]

/-! ### Claim theorems about construction and the Procedure class -/

/-- Claim C5: Worker construction is a synchronous check sequence, run
before any execution context exists (`Worker.run`, which creates the
messaging context, is a separate function): a non-Results argument fails
with the invalid-results error; a valid Results bound to one procedure
with some declared parameter unset fails with the missing-parameter error
naming that parameter and the procedure's class; and when every declared
parameter is set, construction succeeds, with the procedure queued. -/
theorem worker_construction_checks (port : Nat) (proc : ProcedureM) :
    Worker.init none port
        = Except.error (ExpError.invalidResults "Invalid Results object during Worker construction")
    ∧ (parameters_are_set proc = false →
        ∃ n, declared proc n = true ∧ getAttr proc n = none
          ∧ Worker.init (some proc) port
              = Except.error (ExpError.missingParameter n proc.className))
    ∧ (parameters_are_set proc = true →
        Worker.init (some proc) port = Except.ok ⟨port, withStatus proc Procedure.QUEUED⟩) := by
  refine ⟨rfl, ?_, ?_⟩
  · intro h
    obtain ⟨e, he, hnone, hres⟩ := checkParamsList_unset proc proc.params h
    refine ⟨e.fst, lookupParam_isSome_of_mem proc.params e he, hnone, ?_⟩
    simp only [Worker.init, check_parameters, hres]
  · intro h
    have hok := checkParamsList_ok proc proc.params h
    simp only [Worker.init, check_parameters, hok]

/-- Claim C7: loading a persisted run whose original Procedure type cannot
be resolved produces the `UnknownProcedure` placeholder, which preserves
the parameter metadata read from the header, and whose `enter` hook always
fails with the unrunnable-procedure error instead of running. -/
theorem unknown_procedure_placeholder (hp : List (String × Param)) :
    loadProcedure none hp = LoadedProcedure.unknown (UnknownProcedure.init hp)
    ∧ (UnknownProcedure.init hp).params = hp
    ∧ UnknownProcedure.enter (UnknownProcedure.init hp)
        = Except.error (ExpError.unrunnableProcedure "UnknownProcedure can not be run") :=
  ⟨rfl, rfl, rfl⟩

/-- Claim C8: `check_parameters` raises exactly when `parameters_are_set`
reports false, and both happen exactly when some declared parameter's
attribute is None — a None binding is always treated as unset. -/
theorem check_parameters_iff_unset (p : ProcedureM) :
    exceptOk (check_parameters p) = parameters_are_set p
    ∧ (parameters_are_set p = false
        ↔ (p.params.any fun e => (getAttr p e.fst).isNone) = true) := by
  exact ⟨exceptOk_checkParamsList p p.params, all_isSome_eq_false_iff_any_isNone p p.params⟩

/-- Claim C10: `Procedure.__str__` never returns the parameter listing:
its body calls `self.parameterObjects()`, a name absent from the class's
method table, so it always raises an AttributeError. -/
theorem procedure_str_attribute_error (p : ProcedureM) :
    procedureStr p = Except.error (ExpError.attributeError "parameterObjects")
    ∧ Procedure.methodNames.contains "parameterObjects" = false :=
  ⟨rfl, rfl⟩

/-! ### Helper lemmas about set_parameters -/

lemma setOneParam_params (p : ProcedureM) (n : String) (v : Int) :
    (setOneParam p n v).params = updateEntry p.params n v := rfl

/-- Updating the dict entry for `n` changes the lookup at `n` to the
value-updated parameter. -/
lemma lookupParam_updateEntry_same :
    ∀ (l : List (String × Param)) (n : String) (v : Int),
      lookupParam (updateEntry l n v) n
        = (lookupParam l n).map fun pr => setParamValue pr v := by
  intro l n v
  induction l with
  | nil => rfl
  | cons e rest ih =>
      by_cases hq : e.fst = n
      · simp [updateEntry, lookupParam, hq]
      · simp [updateEntry, lookupParam, beq_iff_eq, hq, ih]

/-- Updating the dict entry for `n` leaves the lookup at any other key
unchanged. -/
lemma lookupParam_updateEntry_other :
    ∀ (l : List (String × Param)) (n m : String) (v : Int), m ≠ n →
      lookupParam (updateEntry l n v) m = lookupParam l m := by
  intro l n m v hmn
  induction l with
  | nil => rfl
  | cons e rest ih =>
      by_cases hq : e.fst = n
      · have hnm : n ≠ m := fun hh => hmn hh.symm
        simp [updateEntry, lookupParam, beq_iff_eq, hq, hnm, ih]
      · simp only [updateEntry, beq_iff_eq]
        rw [if_neg hq]
        by_cases he : e.fst = m
        · simp [lookupParam, beq_iff_eq, he]
        · simp [lookupParam, beq_iff_eq, he, ih]

/-- One `set_parameters` iteration does not change which names are
declared. -/
lemma declared_setOneParam (p : ProcedureM) (n m : String) (v : Int) :
    declared (setOneParam p n v) m = declared p m := by
  by_cases h : m = n
  · subst h
    simp only [declared, setOneParam_params, lookupParam_updateEntry_same]
    cases lookupParam p.params m <;> rfl
  · simp only [declared, setOneParam_params]
    rw [lookupParam_updateEntry_other _ _ _ _ h]

/-- One `set_parameters` iteration does not change any parameter's cast. -/
lemma castOf_setOneParam (p : ProcedureM) (n m : String) (v : Int) :
    castOf (setOneParam p n v) m = castOf p m := by
  by_cases h : m = n
  · subst h
    simp only [castOf, setOneParam_params, lookupParam_updateEntry_same]
    cases lookupParam p.params m <;> rfl
  · simp only [castOf, setOneParam_params]
    rw [lookupParam_updateEntry_other _ _ _ _ h]

/-- One `set_parameters` iteration leaves other attributes unchanged. -/
lemma getAttr_setOneParam_other (p : ProcedureM) (n m : String) (v : Int) (h : m ≠ n) :
    getAttr (setOneParam p n v) m = getAttr p m := by
  simp [getAttr, setOneParam, beq_iff_eq, h]

/-- One `set_parameters` iteration on a declared name rebinds the
attribute to the cast value read back from the parameter object. -/
lemma getAttr_setOneParam_same (p : ProcedureM) (n : String) (v : Int)
    (h : declared p n = true) :
    getAttr (setOneParam p n v) n = some (castOf p n v) := by
  have h' : (lookupParam p.params n).isSome = true := h
  cases hpr : lookupParam p.params n with
  | none => rw [hpr] at h'; simp at h'
  | some pr =>
      simp [getAttr, setOneParam, lookupParam_updateEntry_same, hpr, castOf, setParamValue]

/-- Frame property of the `set_parameters` loop: a declared parameter
whose name is not among the input items keeps both its attribute binding
and its parameter object, whatever `exceptMissing` is and whether or not
the loop stops on an undeclared name. -/
lemma set_parameters_frame :
    ∀ (l : List (String × Int)) (p : ProcedureM) (em : Bool) (n : String),
      n ∉ l.map Prod.fst →
      getAttr (set_parameters p l em).fst n = getAttr p n
      ∧ lookupParam (set_parameters p l em).fst.params n = lookupParam p.params n := by
  intro l
  induction l with
  | nil => intro p em n _; exact ⟨rfl, rfl⟩
  | cons e rest ih =>
      intro p em n hn
      rw [List.map_cons, List.mem_cons] at hn
      push_neg at hn
      obtain ⟨hne, hnr⟩ := hn
      by_cases hd : declared p e.fst = true
      · have heq : set_parameters p (e :: rest) em
            = set_parameters (setOneParam p e.fst e.snd) rest em := by
          simp [set_parameters, hd]
        rw [heq]
        obtain ⟨h1, h2⟩ := ih (setOneParam p e.fst e.snd) em n hnr
        refine ⟨?_, ?_⟩
        · rw [h1, getAttr_setOneParam_other _ _ _ _ hne]
        · rw [h2, setOneParam_params, lookupParam_updateEntry_other _ _ _ _ hne]
      · rw [Bool.not_eq_true] at hd
        cases em with
        | true =>
            constructor <;> simp [set_parameters, hd]
        | false =>
            have heq : set_parameters p (e :: rest) false = set_parameters p rest false := by
              simp [set_parameters, hd]
            rw [heq]
            exact ih p false n hnr

/-- Effect of the `set_parameters` loop when every input name is declared
and the names are distinct (a Python dict's keys are): no error is raised
and every named attribute ends bound to its cast input value. -/
lemma set_parameters_updates :
    ∀ (l : List (String × Int)) (p : ProcedureM) (em : Bool),
      (l.map Prod.fst).Nodup →
      (∀ e ∈ l, declared p e.fst = true) →
      (set_parameters p l em).snd = none
      ∧ ∀ e ∈ l, getAttr (set_parameters p l em).fst e.fst
          = some (castOf p e.fst e.snd) := by
  intro l
  induction l with
  | nil => intro p em _ _; exact ⟨rfl, by intro e he; cases he⟩
  | cons a rest ih =>
      intro p em hnd hdecl
      have hda : declared p a.fst = true := hdecl a (List.mem_cons_self a rest)
      have heq : set_parameters p (a :: rest) em
          = set_parameters (setOneParam p a.fst a.snd) rest em := by
        simp [set_parameters, hda]
      rw [List.map_cons, List.nodup_cons] at hnd
      obtain ⟨hna, hndr⟩ := hnd
      have hdecl' : ∀ e ∈ rest, declared (setOneParam p a.fst a.snd) e.fst = true := by
        intro e he
        rw [declared_setOneParam]
        exact hdecl e (List.mem_cons_of_mem a he)
      obtain ⟨hsnd, hupd⟩ := ih (setOneParam p a.fst a.snd) em hndr hdecl'
      rw [heq]
      refine ⟨hsnd, ?_⟩
      intro e he
      rcases List.mem_cons.mp he with he1 | he2
      · subst he1
        have hfr := (set_parameters_frame rest (setOneParam p e.fst e.snd) em e.fst hna).1
        rw [hfr, getAttr_setOneParam_same p e.fst e.snd hda]
      · rw [hupd e he2, castOf_setOneParam]

/-- With `exceptMissing` false the loop never raises. -/
lemma set_parameters_no_raise :
    ∀ (l : List (String × Int)) (p : ProcedureM), (set_parameters p l false).snd = none := by
  intro l
  induction l with
  | nil => intro p; rfl
  | cons e rest ih =>
      intro p
      by_cases hd : declared p e.fst = true
      · simp [set_parameters, hd, ih]
      · rw [Bool.not_eq_true] at hd
        simp [set_parameters, hd, ih]

/-- With `exceptMissing` true the loop stops at the first undeclared name,
raising for it, with the updates made for the declared names before it
kept: the mutation is not atomic on error. -/
lemma set_parameters_nonatomic :
    ∀ (pre : List (String × Int)) (p : ProcedureM) (n0 : String) (v0 : Int)
      (post : List (String × Int)),
      (∀ e ∈ pre, declared p e.fst = true) → declared p n0 = false →
      set_parameters p (pre ++ (n0, v0) :: post) true
        = ((set_parameters p pre true).fst, some (ExpError.undeclaredParameter n0)) := by
  intro pre
  induction pre with
  | nil =>
      intro p n0 v0 post _ hn0
      simp [set_parameters, hn0]
  | cons a rest ih =>
      intro p n0 v0 post hdecl hn0
      have hda : declared p a.fst = true := hdecl a (List.mem_cons_self a rest)
      have hdecl' : ∀ e ∈ rest, declared (setOneParam p a.fst a.snd) e.fst = true := by
        intro e he
        rw [declared_setOneParam]
        exact hdecl e (List.mem_cons_of_mem a he)
      have hn0' : declared (setOneParam p a.fst a.snd) n0 = false := by
        rw [declared_setOneParam]
        exact hn0
      simp only [List.cons_append]
      have heq1 : set_parameters p (a :: (rest ++ (n0, v0) :: post)) true
          = set_parameters (setOneParam p a.fst a.snd) (rest ++ (n0, v0) :: post) true := by
        simp [set_parameters, hda]
      have heq2 : set_parameters p (a :: rest) true
          = set_parameters (setOneParam p a.fst a.snd) rest true := by
        simp [set_parameters, hda]
      rw [heq1, heq2]
      exact ih (setOneParam p a.fst a.snd) n0 v0 post hdecl' hn0'

/-- A concrete two-parameter procedure used to instantiate theorems. -/
def sampleProc : ProcedureM :=
  { className := "TestProcedure",
    params := [("alpha", { value := some 1, cast := fun v => v }),
               ("beta", { value := none, cast := fun v => v })],
    attrs := fun n => if n == "alpha" then some 1 else none,
    status := Procedure.QUEUED }

/-- Claim C9: `set_parameters` updates exactly the declared parameters
whose names appear in the input dict (each named attribute ends bound to
its cast input value, every other declared parameter binding and object is
unchanged); with `except_missing` false, undeclared names are silently
ignored and no error is raised; with `except_missing` true, the first
undeclared name raises the undeclared-parameter error, but the declared
names processed before it have already been updated — the operation is not
atomic on error. -/
theorem set_parameters_frame_spec (p : ProcedureM) (l : List (String × Int)) (em : Bool)
    (hnd : (l.map Prod.fst).Nodup) :
    (∀ n, n ∉ l.map Prod.fst →
      getAttr (set_parameters p l em).fst n = getAttr p n
      ∧ lookupParam (set_parameters p l em).fst.params n = lookupParam p.params n)
    ∧ ((∀ e ∈ l, declared p e.fst = true) →
      (set_parameters p l em).snd = none
      ∧ ∀ e ∈ l, getAttr (set_parameters p l em).fst e.fst
          = some (castOf p e.fst e.snd))
    ∧ (set_parameters p l false).snd = none
    ∧ (∀ pre n0 v0 post, l = pre ++ (n0, v0) :: post →
      (∀ e ∈ pre, declared p e.fst = true) → declared p n0 = false →
      set_parameters p l true
        = ((set_parameters p pre true).fst, some (ExpError.undeclaredParameter n0))) := by
  refine ⟨fun n hn => set_parameters_frame l p em n hn,
    fun hdecl => set_parameters_updates l p em hnd hdecl,
    set_parameters_no_raise l p, ?_⟩
  intro pre n0 v0 post hl hdecl hn0
  rw [hl]
  exact set_parameters_nonatomic pre p n0 v0 post hdecl hn0

/-- Claim C9 witness: on a concrete procedure, setting `alpha` to 5 leaves
`beta` untouched, raises nothing, and binds `alpha` to its cast value. -/
theorem set_parameters_frame_spec_witness :
    getAttr (set_parameters sampleProc [("alpha", 5)] true).fst "beta"
        = getAttr sampleProc "beta"
    ∧ (set_parameters sampleProc [("alpha", 5)] true).snd = none
    ∧ getAttr (set_parameters sampleProc [("alpha", 5)] true).fst "alpha"
        = some (castOf sampleProc "alpha" 5) := by
  have h := set_parameters_frame_spec sampleProc [("alpha", 5)] true (by decide)
  have hdecl : ∀ e ∈ [(("alpha" : String), (5 : Int))], declared sampleProc e.fst = true := by
    decide
  exact ⟨(h.1 "beta" (by decide)).1, (h.2.1 hdecl).1,
    (h.2.1 hdecl).2 ("alpha", 5) (by decide)⟩
